import Mathlib

/-!
Verification of the portfolio/trade CRUD API and the teardown utility of
the lpl-demo repository, as a shallow embedding in Lean.

Conventions of the embedding:
  * Python floats are modelled as exact rationals (`ℚ`); `round(x, 2)` is
    modelled as half-to-even rounding of the rational value at 2 decimals.
  * `datetime` timestamps are modelled as natural numbers; the wall clock
    values used by the handlers are passed in as explicit operation inputs.
  * Generated UUIDs are passed in as explicit string inputs.
  * A parsed JSON body is the inductive `Json`; `request.get_json(silent=True)`
    yields `Option Json` (`none` for an unparseable body), and Python
    truthiness of the parsed value is `Json.truthy`.
  * Python's builtin `hash` on strings (salted per process) is modelled as an
    arbitrary function `String → Int` supplied as a parameter: one function
    per run of the program.
-/

/-- A parsed JSON value, as produced by `request.get_json`. -/
inductive Json where
  | null : Json
  | bool (b : Bool) : Json
  | num (q : ℚ) : Json
  | str (s : String) : Json
  | arr (xs : List Json) : Json
  | obj (fields : List (String × Json)) : Json

/-- Python truthiness of a parsed JSON value: `None`, `False`, `0`, `""`,
`[]` and `\x7b\x7d` are falsy, everything else truthy. -/
def Json.truthy : Json → Bool
  | .null => false
  | .bool b => b
  | .num q => decide (q ≠ 0)
  | .str s => decide (s ≠ "")
  | .arr xs => !xs.isEmpty
  | .obj fs => !fs.isEmpty

/-- Lookup of a key in a JSON object's field list (first occurrence). -/
def Json.getKey (j : Json) (k : String) : Option Json :=
  match j with
  | .obj fs => (fs.find? (fun kv => kv.1 = k)).map (fun kv => kv.2)
  | _ => none

/-- Half-to-even rounding of a rational to an integer, the tie behaviour of
Python's builtin `round`. -/
def roundHalfEven (x : ℚ) : ℤ :=
  let f : ℤ := ⌊x⌋
  let frac : ℚ := x - f
  if frac < 1/2 then f
  else if 1/2 < frac then f + 1
  else if f % 2 = 0 then f else f + 1

/-- Python's `round(x, 2)` on the exact rational value. -/
def round2 (x : ℚ) : ℚ := (roundHalfEven (x * 100) : ℚ) / 100

/-!  Domain models (`app/models.py`).  -/

structure Portfolio where
  portfolio_id : String
  client_id : String
  advisor_id : String
  portfolio_name : String
  status : String
  investment_objective : String
  risk_tolerance : String
  total_value : ℚ
  currency : String
  benchmark_index : String
  created_at : Nat
  updated_at : Nat
  deriving Repr, DecidableEq

structure Trade where
  trade_id : String
  portfolio_id : String
  instrument_type : String
  ticker : String
  side : String
  quantity : ℚ
  order_type : String
  limit_price : Option ℚ
  price_per_unit : ℚ
  total_amount : ℚ
  currency : String
  status : String
  compliance_status : String
  initiated_at : Nat
  deriving Repr, DecidableEq

/-- The derived per-unit price of `Trade.__init__`:
`round(150.0 + (hash(ticker) % 200), 2)`, with `h` the per-run string hash.
Lean's `%` on `Int` is Euclidean remainder, which agrees with Python's `%`
for the positive modulus 200. -/
def pricePerUnit (h : String → Int) (ticker : String) : ℚ :=
  round2 ((150 + (h ticker) % 200 : ℤ) : ℚ)

/-- `Trade.__init__` as called from the trade-create route: `price_per_unit`
is not supplied, so the hash-derived default is used; `total_amount` is
`round(price_per_unit * quantity, 2)`; currency is fixed to USD, status to
pending, compliance to approved; `initiated_at` defaults to now. -/
def mkTrade (h : String → Int) (portfolio_id instrument_type ticker side : String)
    (quantity : ℚ) (order_type : String) (limit_price : Option ℚ)
    (trade_id : String) (now : Nat) : Trade :=
  let price := pricePerUnit h ticker
  { trade_id := trade_id
    portfolio_id := portfolio_id
    instrument_type := instrument_type
    ticker := ticker
    side := side
    quantity := quantity
    order_type := order_type
    limit_price := limit_price
    price_per_unit := price
    total_amount := round2 (price * quantity)
    currency := "USD"
    status := "pending"
    compliance_status := "approved"
    initiated_at := now }

/-- `Portfolio.__init__` as called from `PortfolioInitiateSchema.make_portfolio`:
ids generated, status active, total value 0, both timestamps set to now. -/
def mkPortfolio (client_id portfolio_name investment_objective risk_tolerance
    benchmark_index currency : String) (portfolio_id advisor_id : String)
    (now : Nat) : Portfolio :=
  { portfolio_id := portfolio_id
    client_id := client_id
    advisor_id := advisor_id
    portfolio_name := portfolio_name
    status := "active"
    investment_objective := investment_objective
    risk_tolerance := risk_tolerance
    total_value := 0
    currency := currency
    benchmark_index := benchmark_index
    created_at := now
    updated_at := now }

/-!  Enumerations and marshmallow schemas (`app/models.py`).  -/

def OBJECTIVES : List String :=
  ["growth", "income", "balanced", "preservation", "aggressive-growth"]
def RISK_LEVELS : List String := ["conservative", "moderate", "aggressive"]
def PORTFOLIO_STATUSES : List String :=
  ["active", "suspended", "closed", "pending-review"]
def INSTRUMENT_TYPES : List String :=
  ["equity", "fixed-income", "etf", "mutual-fund", "option"]
def TRADE_SIDES : List String := ["buy", "sell"]
def ORDER_TYPES : List String := ["market", "limit", "stop", "stop-limit"]

/-- Validated output of `PortfolioInitiateSchema.load` before `post_load`,
with load defaults applied. -/
structure InitiateBody where
  clientId : String
  portfolioName : String
  investmentObjective : String
  riskTolerance : String
  benchmarkIndex : String
  currency : String
  deriving Repr, DecidableEq

/-- Validated output of `PortfolioUpdateSchema.load`. -/
structure UpdateBody where
  portfolioName : String
  investmentObjective : Option String
  riskTolerance : Option String
  status : Option String
  benchmarkIndex : Option String
  deriving Repr, DecidableEq

/-- Validated output of `TradeInitiateSchema.load`, with the
`orderType` load default applied. -/
structure TradeBody where
  instrumentType : String
  ticker : String
  side : String
  quantity : ℚ
  limitPrice : Option ℚ
  orderType : String
  deriving Repr, DecidableEq

/-- An ASCII currency code matching `^[A-Z]\x7b3\x7d$`. -/
def isCurrencyCode (s : String) : Bool :=
  s.length = 3 && s.data.all (fun c => 'A' ≤ c && c ≤ 'Z')

/-- Field lookup expecting a JSON string, distinguishing absence from a
type error, as marshmallow's `fields.String` does. -/
def getStr (j : Json) (k : String) : Option (Option String) :=
  match j.getKey k with
  | none => some none
  | some (.str s) => some (some s)
  | some _ => none

/-- Field lookup expecting a JSON number, as marshmallow's `fields.Float`
does for numeric JSON input. -/
def getNum (j : Json) (k : String) : Option (Option ℚ) :=
  match j.getKey k with
  | none => some none
  | some (.num q) => some (some q)
  | some _ => none

/-- Keys of a JSON object are all among the schema's declared fields
(marshmallow's default `unknown = RAISE`). -/
def keysAmong (j : Json) (ks : List String) : Bool :=
  match j with
  | .obj fs => fs.all (fun kv => ks.contains kv.1)
  | _ => false

/-- Field extraction of `PortfolioInitiateSchema`: required and optional
fields with their load defaults, before per-field validators. -/
def readInitiate (j : Json) : Option InitiateBody :=
  match getStr j "clientId", getStr j "portfolioName",
        getStr j "investmentObjective", getStr j "riskTolerance",
        getStr j "benchmarkIndex", getStr j "currency" with
  | some (some cid), some (some name), some (some obj), some risk,
    some bench, some cur =>
      some { clientId := cid, portfolioName := name, investmentObjective := obj,
             riskTolerance := risk.getD "moderate",
             benchmarkIndex := bench.getD "", currency := cur.getD "USD" }
  | _, _, _, _, _, _ => none

/-- Per-field validators of `PortfolioInitiateSchema`. -/
def validInitiate (v : InitiateBody) : Bool :=
  decide (1 ≤ v.portfolioName.length) && decide (v.portfolioName.length ≤ 255)
  && OBJECTIVES.contains v.investmentObjective
  && RISK_LEVELS.contains v.riskTolerance
  && isCurrencyCode v.currency

/-- `PortfolioInitiateSchema.load`: `none` models a `ValidationError`. -/
def loadInitiate (j : Json) : Option InitiateBody :=
  if keysAmong j ["clientId", "portfolioName", "investmentObjective",
                  "riskTolerance", "benchmarkIndex", "currency"] then
    (readInitiate j).filter validInitiate
  else none

/-- Field extraction of `PortfolioUpdateSchema`. -/
def readUpdate (j : Json) : Option UpdateBody :=
  match getStr j "portfolioName", getStr j "investmentObjective",
        getStr j "riskTolerance", getStr j "status",
        getStr j "benchmarkIndex" with
  | some (some name), some obj, some risk, some st, some bench =>
      some { portfolioName := name, investmentObjective := obj,
             riskTolerance := risk, status := st, benchmarkIndex := bench }
  | _, _, _, _, _ => none

/-- Per-field validators of `PortfolioUpdateSchema`. -/
def validUpdate (v : UpdateBody) : Bool :=
  decide (1 ≤ v.portfolioName.length) && decide (v.portfolioName.length ≤ 255)
  && v.investmentObjective.all OBJECTIVES.contains
  && v.riskTolerance.all RISK_LEVELS.contains
  && v.status.all PORTFOLIO_STATUSES.contains

/-- `PortfolioUpdateSchema.load`: `none` models a `ValidationError`. -/
def loadUpdate (j : Json) : Option UpdateBody :=
  if keysAmong j ["portfolioName", "investmentObjective", "riskTolerance",
                  "status", "benchmarkIndex"] then
    (readUpdate j).filter validUpdate
  else none

/-- Field extraction of `TradeInitiateSchema`, with the `orderType`
load default. -/
def readTrade (j : Json) : Option TradeBody :=
  match getStr j "instrumentType", getStr j "ticker", getStr j "side",
        getNum j "quantity", getNum j "limitPrice", getStr j "orderType" with
  | some (some it), some (some tk), some (some sd), some (some qty),
    some lp, some ot =>
      some { instrumentType := it, ticker := tk, side := sd, quantity := qty,
             limitPrice := lp, orderType := ot.getD "market" }
  | _, _, _, _, _, _ => none

/-- Per-field validators of `TradeInitiateSchema`: enum membership, ticker
length in [1,10], strictly positive quantity, non-negative limit price. -/
def validTrade (v : TradeBody) : Bool :=
  INSTRUMENT_TYPES.contains v.instrumentType
  && decide (1 ≤ v.ticker.length) && decide (v.ticker.length ≤ 10)
  && TRADE_SIDES.contains v.side
  && decide (0 < v.quantity)
  && v.limitPrice.all (fun q => decide (0 ≤ q))
  && ORDER_TYPES.contains v.orderType

/-- `TradeInitiateSchema.load`: `none` models a `ValidationError`. -/
def loadTrade (j : Json) : Option TradeBody :=
  if keysAmong j ["instrumentType", "ticker", "side", "quantity",
                  "limitPrice", "orderType"] then
    (readTrade j).filter validTrade
  else none

/-!  In-memory stores (`app/models.py`) and route handlers (`app/routes.py`).

The two module-level dictionaries are modelled as a `Store`: the portfolio
table as a list of portfolios in dictionary (insertion) order, keyed by
their `portfolio_id` field, and the trade table as an association list from
portfolio id to the ordered trade list. -/

structure Store where
  portfolios : List Portfolio
  trades : List (String × List Trade)
  deriving Repr, DecidableEq

def Store.empty : Store := { portfolios := [], trades := [] }

/-- `store.get(portfolio_id)` on the portfolio dictionary. -/
def findPortfolio (s : Store) (pid : String) : Option Portfolio :=
  s.portfolios.find? (fun p => p.portfolio_id = pid)

/-- `portfolio_id in portfolio_store`. -/
def containsPortfolio (s : Store) (pid : String) : Bool :=
  s.portfolios.any (fun p => p.portfolio_id = pid)

/-- Dictionary assignment `store[p.portfolio_id] = p`: replace in place if
the key exists (keeping its position), otherwise append. -/
def dictInsert (l : List Portfolio) (p : Portfolio) : List Portfolio :=
  if l.any (fun q => q.portfolio_id = p.portfolio_id) then
    l.map (fun q => if q.portfolio_id = p.portfolio_id then p else q)
  else l ++ [p]

/-- `trade_store.get(portfolio_id, [])` on a raw trade table. -/
def lookupTrades (ts : List (String × List Trade)) (pid : String) :
    List Trade :=
  match ts.find? (fun kv => kv.1 = pid) with
  | some kv => kv.2
  | none => []

/-- `trade_store.get(portfolio_id, [])`. -/
def tradesOf (s : Store) (pid : String) : List Trade :=
  lookupTrades s.trades pid

/-- `trade_store.setdefault(portfolio_id, []).append(trade)`. -/
def addTrade (ts : List (String × List Trade)) (pid : String) (t : Trade) :
    List (String × List Trade) :=
  if ts.any (fun kv => kv.1 = pid) then
    ts.map (fun kv => if kv.1 = pid then (kv.1, kv.2 ++ [t]) else kv)
  else ts ++ [(pid, [t])]

/-- Python list slicing `l[a:b]` (step 1) with possibly negative bounds. -/
def pySlice {α : Type} (l : List α) (a b : Int) : List α :=
  let n : Int := l.length
  let start : Int := if a < 0 then max 0 (n + a) else min a n
  let stop : Int := if b < 0 then max 0 (n + b) else min b n
  (l.drop start.toNat).take (stop - start).toNat

/-- The `if status_filter:` filter: applied only when the query parameter is
present and non-empty (Python truthiness of the string). -/
def filterByStatus {α : Type} (sf : Option String) (st : α → String)
    (l : List α) : List α :=
  match sf with
  | some s => if s = "" then l else l.filter (fun x => st x = s)
  | none => l

/-- Stable descending sort by creation time,
`sorted(store.values(), key=lambda p: p.created_at, reverse=True)`. -/
def sortPortfolios (l : List Portfolio) : List Portfolio :=
  l.mergeSort (fun a b => decide (b.created_at ≤ a.created_at))

/-- Stable descending sort by initiation time. -/
def sortTrades (l : List Trade) : List Trade :=
  l.mergeSort (fun a b => decide (b.initiated_at ≤ a.initiated_at))

structure PortfolioListResp where
  portfolios : List Portfolio
  total : Nat
  limit : Int
  offset : Int
  deriving Repr, DecidableEq

/-- `GET /portfolios` (`list_portfolios`). `limit0`/`offset0` are the query
integers (`none` when absent or unparseable, in which case Flask supplies
the defaults 20 and 0). Limit is clamped to [1,100], offset to ≥ 0. -/
def list_portfolios (s : Store) (limit0 offset0 : Option Int)
    (status_filter : Option String) : PortfolioListResp :=
  let limit := max 1 (min (limit0.getD 20) 100)
  let offset := max 0 (offset0.getD 0)
  let all_items := filterByStatus status_filter Portfolio.status
    (sortPortfolios s.portfolios)
  let page := pySlice all_items offset (offset + limit)
  { portfolios := page, total := all_items.length, limit := limit,
    offset := offset }

inductive PortfolioCreateResult where
  | badRequest
  | validationError
  | created (p : Portfolio)
  deriving Repr, DecidableEq

/-- The `Portfolio(...)` call of the create schema's `post_load`, on the
validated body. -/
def portfolioOfBody (v : InitiateBody) (pid aid : String) (now : Nat) :
    Portfolio :=
  mkPortfolio v.clientId v.portfolioName v.investmentObjective
    v.riskTolerance v.benchmarkIndex v.currency pid aid now

/-- `POST /portfolios` (`initiate_portfolio`). `body` is the parsed JSON
(`none` when `get_json(silent=True)` returned `None`); the generated UUIDs
and the clock value are explicit inputs. Returns response and new store. -/
def initiate_portfolio (body : Option Json) (pid aid : String) (now : Nat)
    (s : Store) : PortfolioCreateResult × Store :=
  match body with
  | none => (.badRequest, s)
  | some j =>
    if j.truthy then
      match loadInitiate j with
      | none => (.validationError, s)
      | some v =>
        let p := portfolioOfBody v pid aid now
        (.created p, { s with portfolios := dictInsert s.portfolios p })
    else (.badRequest, s)

inductive PortfolioGetResult where
  | notFound
  | ok (p : Portfolio)
  deriving Repr, DecidableEq

/-- `GET /portfolios/<id>` (`get_portfolio`). -/
def get_portfolio (s : Store) (pid : String) : PortfolioGetResult :=
  match findPortfolio s pid with
  | none => .notFound
  | some p => .ok p

inductive PortfolioUpdateResult where
  | notFound
  | badRequest
  | validationError
  | ok (p : Portfolio)
  deriving Repr, DecidableEq

/-- The field assignments of `update_portfolio`: name always, the optional
fields only when present in the validated body, `updated_at` always. -/
def applyUpdate (p : Portfolio) (v : UpdateBody) (now : Nat) : Portfolio :=
  { p with
    portfolio_name := v.portfolioName
    investment_objective := v.investmentObjective.getD p.investment_objective
    risk_tolerance := v.riskTolerance.getD p.risk_tolerance
    status := v.status.getD p.status
    benchmark_index := v.benchmarkIndex.getD p.benchmark_index
    updated_at := now }

/-- `PUT /portfolios/<id>` (`update_portfolio`): portfolio lookup first,
then the body truthiness check, then schema validation, then in-place
mutation of the stored portfolio object. -/
def update_portfolio (pid : String) (body : Option Json) (now : Nat)
    (s : Store) : PortfolioUpdateResult × Store :=
  match findPortfolio s pid with
  | none => (.notFound, s)
  | some p =>
    match body with
    | none => (.badRequest, s)
    | some j =>
      if j.truthy then
        match loadUpdate j with
        | none => (.validationError, s)
        | some v =>
          let q := applyUpdate p v now
          (.ok q, { s with portfolios :=
            s.portfolios.map (fun r => if r.portfolio_id = pid then q else r) })
      else (.badRequest, s)

structure TradeListResp where
  trades : List Trade
  total : Nat
  limit : Int
  offset : Int
  deriving Repr, DecidableEq

inductive TradeListResult where
  | notFound
  | ok (r : TradeListResp)
  deriving Repr, DecidableEq

/-- `GET /portfolios/<id>/trades` (`list_trades`): 404 for an unknown
portfolio; limit clamped to [1,100]; the offset is used as supplied
(default 0, no clamping in the source); filter, then stable sort by
initiation time descending, then slice. -/
def list_trades (s : Store) (portfolio_id : String)
    (limit0 offset0 : Option Int) (status_filter : Option String) :
    TradeListResult :=
  if containsPortfolio s portfolio_id then
    let limit := max 1 (min (limit0.getD 20) 100)
    let offset := offset0.getD 0
    let trades := filterByStatus status_filter Trade.status
      (tradesOf s portfolio_id)
    let trades_sorted := sortTrades trades
    let page := pySlice trades_sorted offset (offset + limit)
    .ok { trades := page, total := trades_sorted.length, limit := limit,
          offset := offset }
  else .notFound

inductive TradeCreateResult where
  | notFound
  | badRequest
  | validationError
  | created (t : Trade)
  deriving Repr, DecidableEq

/-- The portfolio mutation of `initiate_trade`: increment the total on buy,
decrement floored at 0 otherwise, and refresh `updated_at`. -/
def applyTradeEffect (p : Portfolio) (t : Trade) (now : Nat) : Portfolio :=
  if t.side = "buy" then
    { p with total_value := p.total_value + t.total_amount, updated_at := now }
  else
    { p with total_value := max 0 (p.total_value - t.total_amount),
             updated_at := now }

/-- The `Trade(...)` call of `initiate_trade`, on the validated body. -/
def tradeOfBody (h : String → Int) (pid : String) (v : TradeBody)
    (tid : String) (now : Nat) : Trade :=
  mkTrade h pid v.instrumentType v.ticker v.side v.quantity
    v.orderType v.limitPrice tid now

/-- `POST /portfolios/<id>/trades` (`initiate_trade`): 404 for an unknown
portfolio, then body truthiness, then schema validation; on success the
trade is appended to the portfolio's trade list and the portfolio's total
value and update timestamp are adjusted. -/
def initiate_trade (h : String → Int) (pid : String) (body : Option Json)
    (tid : String) (now : Nat) (s : Store) : TradeCreateResult × Store :=
  if containsPortfolio s pid then
    match body with
    | none => (.badRequest, s)
    | some j =>
      if j.truthy then
        match loadTrade j with
        | none => (.validationError, s)
        | some v =>
          let t := tradeOfBody h pid v tid now
          (.created t,
           { s with
             trades := addTrade s.trades pid t
             portfolios := s.portfolios.map
               (fun p => if p.portfolio_id = pid then applyTradeEffect p t now
                         else p) })
      else (.badRequest, s)
  else (.notFound, s)

/-!  Reachability: the store is created empty at process start and mutated
only by the three mutating handlers.  Each operation carries the values the
handler draws from its environment (parsed body, generated UUIDs, clock). -/

inductive Op where
  | createP (body : Option Json) (pid aid : String) (now : Nat)
  | updateP (pid : String) (body : Option Json) (now : Nat)
  | createT (pid : String) (body : Option Json) (tid : String) (now : Nat)

def Op.time : Op → Nat
  | .createP _ _ _ n => n
  | .updateP _ _ n => n
  | .createT _ _ _ n => n

/-- The store effect of one operation (the handlers' second component). -/
def applyOp (h : String → Int) (s : Store) (op : Op) : Store :=
  match op with
  | .createP body pid aid now => (initiate_portfolio body pid aid now s).2
  | .updateP pid body now => (update_portfolio pid body now s).2
  | .createT pid body tid now => (initiate_trade h pid body tid now s).2

def runOps (h : String → Int) (s : Store) (ops : List Op) : Store :=
  ops.foldl (applyOp h) s

/-- The wall clock does not go backwards along a trace of operations. -/
def timesMono : Nat → List Op → Bool
  | _, [] => true
  | t, op :: rest => decide (t ≤ op.time) && timesMono op.time rest

/-!  Teardown utility (`scripts/teardown.py`).

External services are modelled by an environment record holding the outcome
of each call the script can make: `requests` calls return a response whose
`ok` is `status < 400` (HTTP error statuses do not raise), and AWS calls
return `Except ClientError` (raising a `ClientError`, the condition the
script's `try/except` blocks catch); the `"ResourceNotFoundException" in
str(e)` test is modelled as equality with the error's code string.  Log
output is the list of entries the script emits, at level info or warning. -/

structure Resp where
  status : Nat
  deriving Repr, DecidableEq

def Resp.isOk (r : Resp) : Bool := r.status < 400

structure ClientError where
  code : String
  deriving Repr, DecidableEq

inductive Entry where
  | info (msg : String)
  | warn (msg : String)
  deriving Repr, DecidableEq

structure ApiItem where
  name : String
  apiId : String
  deriving Repr, DecidableEq

structure TdEnv where
  wsGet : Resp
  wsDelete : Resp
  repoGet : Resp
  repoDelete : Resp
  getApis : Except ClientError (List ApiItem)
  deleteApi : String → Except ClientError Unit
  getFunction : Except ClientError Unit
  deleteFunction : Except ClientError Unit
  getRole : Except ClientError Unit
  listAttachedRolePolicies : Except ClientError (List String)
  detachRolePolicy : String → Except ClientError Unit
  deleteRole : Except ClientError Unit
  describeLogGroups : Except ClientError Unit
  deleteLogGroup : Except ClientError Unit
  listWorkspaces : Option (List (String × String))

/-- `teardown_postman`: info on 2xx/3xx, info on 404, warning otherwise;
dry-run looks the workspace up and reports. -/
def teardown_postman (wsId : String) (dry : Bool) (env : TdEnv) : List Entry :=
  if dry then
    if env.wsGet.isOk then
      [.info ("[DRY RUN] Would delete workspace: " ++ wsId)]
    else [.warn ("[DRY RUN] Workspace " ++ wsId ++ " not found")]
  else
    if env.wsDelete.isOk then [.info ("Deleted Postman workspace: " ++ wsId)]
    else if env.wsDelete.status = 404 then
      [.info ("Workspace " ++ wsId ++ " already deleted")]
    else [.warn ("Failed to delete workspace " ++ wsId)]

/-- `teardown_github`: 204 and 404 are both reported as deleted, anything
else as a warning; dry-run reports at info level in both cases. -/
def teardown_github (repo org : String) (dry : Bool) (env : TdEnv) :
    List Entry :=
  if dry then
    if env.repoGet.isOk then
      [.info ("[DRY RUN] Would delete repo: " ++ org ++ "/" ++ repo)]
    else [.info ("[DRY RUN] Repo " ++ org ++ "/" ++ repo ++ " not found")]
  else
    if env.repoDelete.status = 204 || env.repoDelete.status = 404 then
      [.info ("Deleted GitHub repo: " ++ org ++ "/" ++ repo)]
    else [.warn "Failed to delete repo"]

/-- The API Gateway `try` block of `teardown_aws`: list the APIs and delete
(or report) every one whose name matches `<function_name>-api`. -/
def apigwBlock (fn : String) (dry : Bool) (env : TdEnv) :
    Except ClientError (List Entry) := do
  let apis ← env.getApis
  let apiName := fn ++ "-api"
  apis.foldlM (fun acc item =>
    if item.name = apiName then
      if dry then
        pure (acc ++ [Entry.info ("[DRY RUN] Would delete API Gateway: " ++ apiName)])
      else do
        env.deleteApi item.apiId
        pure (acc ++ [Entry.info ("Deleted API Gateway: " ++ apiName)])
    else pure acc) []

/-- The Lambda `try` block of `teardown_aws`. -/
def lambdaBlock (fn : String) (dry : Bool) (env : TdEnv) :
    Except ClientError (List Entry) :=
  if dry then do
    env.getFunction
    pure [.info ("[DRY RUN] Would delete Lambda: " ++ fn)]
  else do
    env.deleteFunction
    pure [.info ("Deleted Lambda: " ++ fn)]

/-- The IAM `try` block of `teardown_aws`: detach every attached policy,
then delete the role. -/
def iamBlock (role : String) (dry : Bool) (env : TdEnv) :
    Except ClientError (List Entry) :=
  if dry then do
    env.getRole
    pure [.info ("[DRY RUN] Would delete IAM role: " ++ role)]
  else do
    let ps ← env.listAttachedRolePolicies
    ps.foldlM (fun _ arn => env.detachRolePolicy arn) ()
    env.deleteRole
    pure [.info ("Deleted IAM role: " ++ role)]

/-- The CloudWatch `try` block of `teardown_aws`. -/
def logsBlock (lg : String) (dry : Bool) (env : TdEnv) :
    Except ClientError (List Entry) :=
  if dry then do
    env.describeLogGroups
    pure [.info ("[DRY RUN] Would delete log group: " ++ lg)]
  else do
    env.deleteLogGroup
    pure [.info ("Deleted log group: " ++ lg)]

/-- `teardown_aws`: four independent `try/except ClientError` blocks run in
sequence; a not-found condition is logged as an info-level success, any
other `ClientError` as a warning, and the next block runs regardless. -/
def teardown_aws (fn : String) (dry : Bool) (env : TdEnv) : List Entry :=
  let apigwLogs := match apigwBlock fn dry env with
    | .ok l => l
    | .error e => [.warn ("API Gateway cleanup: " ++ e.code)]
  let lambdaLogs := match lambdaBlock fn dry env with
    | .ok l => l
    | .error e =>
      if e.code = "ResourceNotFoundException" then
        [.info ("Lambda " ++ fn ++ " already deleted")]
      else [.warn ("Lambda cleanup: " ++ e.code)]
  let role := "cse-lpl-" ++ fn ++ "-lambda-role"
  let iamLogs := match iamBlock role dry env with
    | .ok l => l
    | .error e =>
      if e.code = "NoSuchEntity" then
        [.info ("IAM role " ++ role ++ " already deleted")]
      else [.warn ("IAM role cleanup: " ++ e.code)]
  let lg := "/aws/lambda/" ++ fn
  let logsLogs := match logsBlock lg dry env with
    | .ok l => l
    | .error e =>
      if e.code = "ResourceNotFoundException" then
        [.info ("Log group " ++ lg ++ " already deleted")]
      else [.warn ("CloudWatch cleanup: " ++ e.code)]
  apigwLogs ++ lambdaLogs ++ iamLogs ++ logsLogs

/-- The list `hay` starts with the list `needle`. -/
def charsStartWith : List Char → List Char → Bool
  | _, [] => true
  | [], _ :: _ => false
  | a :: as, b :: bs => a = b && charsStartWith as bs

/-- The list `needle` occurs contiguously inside `hay`. -/
def charsContain (hay needle : List Char) : Bool :=
  charsStartWith hay needle ||
    match hay with
    | [] => false
    | _ :: t => charsContain t needle

/-- Python's `needle in hay` on strings. -/
def strContains (hay needle : String) : Bool :=
  charsContain hay.data needle.data

/-- `_find_workspace_id`: empty string when the listing call fails or no
workspace's lowered name contains the project name. -/
def findWorkspaceId (projectName : String) (env : TdEnv) : String :=
  match env.listWorkspaces with
  | none => ""
  | some wss =>
    match wss.find? (fun ws => strContains ws.1.toLower projectName) with
    | some ws => ws.2
    | none => ""

/-- The fatal ways out of `main`: `parser.error` on missing selection input,
an unreadable or unparseable result file, and a result record without the
expected structure (`KeyError` / `TypeError` / `AttributeError`). -/
inductive TdFatal where
  | usage
  | fileError
  | keyError (k : String)
  | typeError
  deriving Repr, DecidableEq

/-- Python `str()` of a JSON value, as interpolated into log and URL text
(rendering of composites is approximate; the script only ever renders
scalars drawn from the result file). -/
def jsonToStr : Json → String
  | .str s => s
  | .num q => toString q
  | .bool b => if b then "True" else "False"
  | .null => "None"
  | .arr _ => "[...]"
  | .obj _ => "\x7b...\x7d"

/-- Python `d[k]`: `KeyError` when the key is missing, `TypeError` when the
value being indexed is not a dict. -/
def getKeyE (j : Json) (k : String) : Except TdFatal Json :=
  match j with
  | .obj fs =>
    match fs.find? (fun kv => kv.1 = k) with
    | some kv => .ok kv.2
    | none => .error (.keyError k)
  | _ => .error .typeError

/-- `repo_url.rstrip("/")`. -/
def pyRstripSlashes (s : String) : String :=
  String.mk (s.data.reverse.dropWhile (fun c => c = '/')).reverse

/-- `repo_url.rstrip("/").split("/")[-1]`: the suffix after the last
slash of the slash-stripped string (the whole string when it has none). -/
def lastSegment (s : String) : String :=
  String.mk ((pyRstripSlashes s).data.foldl
    (fun acc c => if c = '/' then [] else acc ++ [c]) [])

/-- The result-record extraction of `main` (lines 173-175 of the script):
each subscript can raise, and `.get("repo_url", "")` tolerates a missing
key but `.rstrip` on a non-string raises. -/
def extractResult (j : Json) : Except TdFatal (Json × String × Json) := do
  let resources ← getKeyE j "resources"
  let pm ← getKeyE resources "postman"
  let wsVal ← getKeyE pm "workspace_id"
  let gh ← getKeyE resources "github"
  let repoUrl ←
    match gh with
    | .obj fs =>
      match fs.find? (fun kv => kv.1 = "repo_url") with
      | some kv =>
        match kv.2 with
        | .str s => Except.ok s
        | _ => Except.error TdFatal.typeError
      | none => Except.ok ""
    | _ => Except.error TdFatal.typeError
  let aws ← getKeyE resources "aws"
  let fnVal ← getKeyE aws "function_name"
  pure (wsVal, lastSegment repoUrl, fnVal)

structure Args where
  project : Option String
  result : Option String
  dryRun : Bool

/-- The teardown sequence of `main` once the three resource names are
known: Postman (skipped with a warning when the workspace id is falsy),
then GitHub, then AWS, then the completion message. -/
def runTeardown (wsVal : Json) (repo fn org : String) (dry : Bool)
    (env : TdEnv) : List Entry :=
  [.info ("Tearing down: " ++ repo)]
  ++ (if wsVal.truthy then teardown_postman (jsonToStr wsVal) dry env
      else [.warn "No workspace ID found -- skipping Postman teardown"])
  ++ teardown_github repo org dry env
  ++ teardown_aws fn dry env
  ++ [.info "Teardown complete"]

/-- `main`: the `--result` branch reads and destructures the result file
(fatal on failure), the `--project` branch derives the names and looks the
workspace up, and the absence of both is the usage error. `readFile` maps a
path to its parsed JSON content (`none`: unreadable or unparseable). -/
def teardown_main (args : Args) (readFile : String → Option Json)
    (org : String) (env : TdEnv) : Except TdFatal (List Entry) :=
  match args.result with
  | some path =>
    match readFile path with
    | none => .error .fileError
    | some j =>
      match extractResult j with
      | .error e => .error e
      | .ok (wsVal, repo, fnVal) =>
        .ok (runTeardown wsVal repo (jsonToStr fnVal) org args.dryRun env)
  | none =>
    match args.project with
    | some proj =>
      let repo := ((proj.toLower).replace " " "-").replace "_" "-"
      let wsId := findWorkspaceId repo env
      .ok (runTeardown (Json.str wsId) repo repo org args.dryRun env)
    | none => .error .usage

/-!  Concrete inputs used by witnesses and counterexamples.  -/

/-- A fixed per-run string hash. -/
def h0 : String → Int := fun _ => 0

def samplePortfolio : Portfolio :=
  mkPortfolio "client-1" "Growth Fund" "growth" "moderate" "" "USD"
    "p1" "a1" 5

def sampleStore : Store := { portfolios := [samplePortfolio], trades := [] }

def sampleTradeJson : Json :=
  .obj [("instrumentType", .str "equity"), ("ticker", .str "AAPL"),
        ("side", .str "buy"), ("quantity", .num 10)]

def sampleTradeBody : TradeBody :=
  { instrumentType := "equity", ticker := "AAPL", side := "buy",
    quantity := 10, limitPrice := none, orderType := "market" }

def sampleInitJson : Json :=
  .obj [("clientId", .str "client-1"), ("portfolioName", .str "Growth Fund"),
        ("investmentObjective", .str "growth")]

def sampleInitBody : InitiateBody :=
  { clientId := "client-1", portfolioName := "Growth Fund",
    investmentObjective := "growth", riskTolerance := "moderate",
    benchmarkIndex := "", currency := "USD" }

def sampleUpdateJson : Json := .obj [("portfolioName", .str "Renamed Fund")]

def sampleUpdateBody : UpdateBody :=
  { portfolioName := "Renamed Fund", investmentObjective := none,
    riskTolerance := none, status := none, benchmarkIndex := none }

/-- Trades used by the trade-listing counterexample. -/
def tradeA : Trade :=
  mkTrade h0 "p1" "equity" "AAPL" "buy" 1 "market" none "tA" 1

def tradeB : Trade :=
  mkTrade h0 "p1" "equity" "MSFT" "buy" 1 "market" none "tB" 2

def twoTradeStore : Store :=
  { portfolios := [samplePortfolio], trades := [("p1", [tradeA, tradeB])] }

/-- The two trades of `twoTradeStore`, sorted as the listing handler sorts
them. -/
def sortedTwoTrades : List Trade := sortTrades [tradeA, tradeB]

/-- The trade listing of `twoTradeStore` at offset 0 with default limit. -/
def c5Resp : TradeListResp :=
  { trades := pySlice sortedTwoTrades 0 20, total := sortedTwoTrades.length,
    limit := 20, offset := 0 }

/-- Five portfolios, for the listing example of the spec. -/
def mkP (i : Nat) : Portfolio :=
  mkPortfolio "client-1" "Fund" "growth" "moderate" "" "USD"
    (toString i) ("a" ++ toString i) i

def fiveStore : Store :=
  { portfolios := [mkP 1, mkP 2, mkP 3, mkP 4, mkP 5], trades := [] }

/-- A two-operation trace: create a portfolio, then rename it. -/
def sampleOps : List Op :=
  [.createP (some sampleInitJson) "p1" "a1" 1,
   .updateP "p1" (some sampleUpdateJson) 2]

/-- The portfolio produced by `sampleOps` (head of the resulting store). -/
def samplePortfolioAfter : Portfolio :=
  (runOps h0 Store.empty sampleOps).portfolios.headD
    (mkPortfolio "" "" "" "" "" "" "" "" 0)

/-- Arguments with neither a project nor a result file. -/
def noSelectionArgs : Args :=
  { project := none, result := none, dryRun := false }

/-- Arguments selecting by project name, in dry-run mode. -/
def projArgs : Args :=
  { project := some "Advisor Portfolio API", result := none, dryRun := true }

/-- A teardown environment in which every external call succeeds. -/
def quietEnv : TdEnv :=
  { wsGet := { status := 200 }, wsDelete := { status := 200 }
    repoGet := { status := 200 }, repoDelete := { status := 204 }
    getApis := .ok []
    deleteApi := fun _ => .ok ()
    getFunction := .ok (), deleteFunction := .ok ()
    getRole := .ok (), listAttachedRolePolicies := .ok []
    detachRolePolicy := fun _ => .ok ()
    deleteRole := .ok ()
    describeLogGroups := .ok (), deleteLogGroup := .ok ()
    listWorkspaces := some [("Advisor Portfolio API demo", "ws-1")] }

/-- `--result provisioning-result.json` with no readable file behind it. -/
def lostResultArgs : Args :=
  { project := none, result := some "provisioning-result.json",
    dryRun := false }

/-- A filesystem on which every read fails (missing file or bad JSON). -/
def emptyFs : String → Option Json := fun _ => none

/-- A well-formed provisioning record. -/
def goodResultJson : Json :=
  .obj [("resources", .obj
    [("postman", .obj [("workspace_id", .str "ws-1")]),
     ("github", .obj [("repo_url",
        .str "https://github.com/postman-cs/advisor-portfolio-api/")]),
     ("aws", .obj [("function_name", .str "advisor-portfolio-api")])])]

/-- A filesystem holding the well-formed record at every path. -/
def goodFs : String → Option Json := fun _ => some goodResultJson

/-!  General lemmas about the embedded operations.  -/

theorem roundHalfEven_nonneg {x : ℚ} (hx : 0 ≤ x) : 0 ≤ roundHalfEven x := by
  have hf : (0 : ℤ) ≤ ⌊x⌋ := Int.floor_nonneg.mpr hx
  unfold roundHalfEven
  dsimp only
  split
  · exact hf
  · split
    · omega
    · split
      · exact hf
      · omega

theorem round2_nonneg {x : ℚ} (hx : 0 ≤ x) : 0 ≤ round2 x := by
  unfold round2
  have h : (0 : ℤ) ≤ roundHalfEven (x * 100) :=
    roundHalfEven_nonneg (by positivity)
  positivity

/-- Rounding an integer-valued rational is exact. -/
theorem roundHalfEven_intCast (n : ℤ) : roundHalfEven (n : ℚ) = n := by
  unfold roundHalfEven
  dsimp only
  rw [Int.floor_intCast]
  have h : (n : ℚ) - n = 0 := by ring
  rw [h]
  norm_num

theorem round2_intCast (n : ℤ) : round2 (n : ℚ) = n := by
  unfold round2
  have h : ((n : ℚ)) * 100 = ((n * 100 : ℤ) : ℚ) := by push_cast; ring
  rw [h, roundHalfEven_intCast]
  push_cast
  ring

/-- `find?` commutes with a map that does not move elements across the
predicate boundary. -/
theorem find?_map_congr {α : Type} (g : α → α) (pr : α → Bool)
    (hg : ∀ r, pr (g r) = pr r) (l : List α) :
    (l.map g).find? pr = (l.find? pr).map g := by
  induction l with
  | nil => rfl
  | cons a l ih =>
    simp only [List.map_cons, List.find?]
    rw [hg a]
    cases hpr : pr a
    · simpa using ih
    · rfl

theorem loadTrade_valid {j : Json} {v : TradeBody}
    (h : loadTrade j = some v) : validTrade v = true := by
  unfold loadTrade at h
  split at h
  · cases hr : readTrade j with
    | none => rw [hr] at h; simp [Option.filter] at h
    | some w =>
      rw [hr] at h
      by_cases hv : validTrade w
      · simp only [Option.filter, hv, if_true] at h
        cases h
        exact hv
      · simp [Option.filter, hv] at h
  · exact absurd h (by simp)

theorem loadTrade_quantity_pos {j : Json} {v : TradeBody}
    (h : loadTrade j = some v) : 0 < v.quantity := by
  have hv := loadTrade_valid h
  unfold validTrade at hv
  simp only [Bool.and_eq_true, decide_eq_true_eq] at hv
  exact hv.1.1.2

theorem pricePerUnit_nonneg (h : String → Int) (t : String) :
    0 ≤ pricePerUnit h t := by
  unfold pricePerUnit
  apply round2_nonneg
  have hm : (0 : ℤ) ≤ h t % 200 := Int.emod_nonneg _ (by norm_num)
  have : (0 : ℤ) ≤ 150 + h t % 200 := by omega
  exact_mod_cast this

theorem mkTrade_total_nonneg (h : String → Int)
    (pid it tk sd : String) (q : ℚ) (ot : String) (lp : Option ℚ)
    (tid : String) (now : Nat) (hq : 0 ≤ q) :
    0 ≤ (mkTrade h pid it tk sd q ot lp tid now).total_amount := by
  unfold mkTrade
  dsimp only
  exact round2_nonneg (mul_nonneg (pricePerUnit_nonneg h tk) hq)

/-- Replacing the entry of a key in place puts the new value where `find?`
of that key looks. -/
theorem find?_replace (l : List Portfolio) (p : Portfolio) :
    (l.map (fun q => if q.portfolio_id = p.portfolio_id then p else q)).find?
        (fun q => q.portfolio_id = p.portfolio_id)
      = if l.any (fun q => q.portfolio_id = p.portfolio_id) then some p
        else none := by
  induction l with
  | nil => rfl
  | cons a l ih =>
    by_cases ha : a.portfolio_id = p.portfolio_id
    · simp [List.find?_cons, List.any_cons, ha]
    · simp [List.find?_cons, List.any_cons, ha, ih]

/-- Dictionary assignment followed by lookup of the same key yields the
assigned portfolio. -/
theorem findPortfolio_dictInsert (s : Store) (p : Portfolio) :
    (dictInsert s.portfolios p).find?
        (fun q => q.portfolio_id = p.portfolio_id) = some p := by
  unfold dictInsert
  split
  case isTrue hany => rw [find?_replace, if_pos hany]
  case isFalse hany =>
    rw [List.find?_append]
    have hnone : s.portfolios.find?
        (fun q => q.portfolio_id = p.portfolio_id) = none := by
      rw [List.find?_eq_none]
      intro x hx hpx
      exact hany (List.any_eq_true.mpr ⟨x, hx, hpx⟩)
    simp [hnone]

/-- Appending a trade to one portfolio's list leaves every other
portfolio's list untouched and extends the owner's list at the end. -/
theorem lookupTrades_addTrade (ts : List (String × List Trade))
    (pid pid' : String) (t : Trade) :
    lookupTrades (addTrade ts pid' t) pid
      = lookupTrades ts pid ++ (if pid = pid' then [t] else []) := by
  unfold addTrade
  split
  case isTrue hany =>
    unfold lookupTrades
    rw [find?_map_congr (fun kv => if kv.1 = pid' then (kv.1, kv.2 ++ [t])
        else kv) (fun kv => decide (kv.1 = pid))
      (by intro r; by_cases hr : r.1 = pid' <;> simp [hr])]
    cases hf : ts.find? (fun kv => decide (kv.1 = pid)) with
    | none =>
      by_cases hpp : pid = pid'
      · exfalso
        obtain ⟨kv, hkv, hkv1⟩ := List.any_eq_true.mp hany
        exact (List.find?_eq_none.mp hf kv hkv) (by simpa [hpp] using hkv1)
      · simp [hpp]
    | some kv =>
      have hkv1 : kv.1 = pid := by simpa using List.find?_some hf
      by_cases hpp : kv.1 = pid'
      · have hpid : pid = pid' := hkv1 ▸ hpp
        simp [hpp, hpid]
      · have hpid : ¬(pid = pid') := fun hc => hpp (hkv1 ▸ hc)
        simp [hpp, hpid]
  case isFalse hany =>
    unfold lookupTrades
    rw [List.find?_append]
    cases hf : ts.find? (fun kv => decide (kv.1 = pid)) with
    | some kv =>
      have hkv1 : kv.1 = pid := by simpa using List.find?_some hf
      have hpid : ¬(pid = pid') := by
        intro hc
        exact hany (List.any_eq_true.mpr ⟨kv, List.mem_of_find?_eq_some hf,
          by simp [hkv1, hc]⟩)
      simp [hpid]
    | none =>
      by_cases hpp : pid' = pid
      · simp [List.find?_cons, hpp]
      · have hpid : ¬(pid = pid') := fun hc => hpp hc.symm
        simp [List.find?_cons, hpp, hpid]

/-- Python's `l[a:b]` for non-negative bounds is drop-then-take. -/
theorem pySlice_nonneg {α : Type} (l : List α) (a b : Int)
    (ha : 0 ≤ a) (hb : 0 ≤ b) :
    pySlice l a b = (l.drop a.toNat).take (b.toNat - a.toNat) := by
  unfold pySlice
  simp only
  rw [if_neg (by omega), if_neg (by omega)]
  rcases le_or_lt (l.length : ℤ) a with hna | hna
  · have h1 : min a (l.length : ℤ) = (l.length : ℤ) := min_eq_right hna
    have hd1 : l.drop ((l.length : ℤ)).toNat = [] :=
      List.drop_eq_nil_of_le (by omega)
    have hd2 : l.drop a.toNat = [] := List.drop_eq_nil_of_le (by omega)
    rw [h1, hd1, hd2]
    simp
  · have h1 : min a (l.length : ℤ) = a := min_eq_left (le_of_lt hna)
    rw [h1]
    rcases le_or_lt (l.length : ℤ) b with hnb | hnb
    · have h2 : min b (l.length : ℤ) = (l.length : ℤ) := min_eq_right hnb
      rw [h2]
      have hlen : (l.drop a.toNat).length = l.length - a.toNat :=
        List.length_drop _ _
      rw [List.take_of_length_le (by omega), List.take_of_length_le (by omega)]
    · have h2 : min b (l.length : ℤ) = b := min_eq_left (le_of_lt hnb)
      rw [h2]
      congr 1
      omega

theorem containsPortfolio_of_find {s : Store} {pid : String} {p : Portfolio}
    (hp : findPortfolio s pid = some p) : containsPortfolio s pid = true := by
  have h1 : s.portfolios.find? (fun q => decide (q.portfolio_id = pid))
      = some p := hp
  have hmem := List.mem_of_find?_eq_some h1
  have hpred := List.find?_some h1
  unfold containsPortfolio
  exact List.any_eq_true.mpr ⟨p, hmem, hpred⟩

theorem findPortfolio_id {s : Store} {pid : String} {p : Portfolio}
    (hp : findPortfolio s pid = some p) : p.portfolio_id = pid := by
  have h1 : s.portfolios.find? (fun q => decide (q.portfolio_id = pid))
      = some p := hp
  simpa using List.find?_some h1

theorem applyTradeEffect_portfolio_id (p : Portfolio) (t : Trade) (now : Nat) :
    (applyTradeEffect p t now).portfolio_id = p.portfolio_id := by
  unfold applyTradeEffect
  split <;> rfl

theorem applyTradeEffect_updated_at (p : Portfolio) (t : Trade) (now : Nat) :
    (applyTradeEffect p t now).updated_at = now := by
  unfold applyTradeEffect
  split <;> rfl

/-- C1: a successful trade creation on an existing portfolio returns the
created trade, whose total amount is `round2` of price times quantity; the
stored portfolio becomes `applyTradeEffect p t now`: total value up by the
trade's total amount on buy, down by it but floored at 0 on sell (never
below 0 from a non-negative total), with the update timestamp set to the
call's clock value. -/
theorem C1_trade_value_effect (h : String → Int) (s : Store)
    (pid tid : String) (j : Json) (now : Nat) (v : TradeBody) (p : Portfolio)
    (hp : findPortfolio s pid = some p)
    (htr : j.truthy = true)
    (hload : loadTrade j = some v) :
    (initiate_trade h pid (some j) tid now s).1
      = .created (tradeOfBody h pid v tid now) ∧
    (tradeOfBody h pid v tid now).total_amount
      = round2 ((tradeOfBody h pid v tid now).price_per_unit
                 * (tradeOfBody h pid v tid now).quantity) ∧
    findPortfolio (initiate_trade h pid (some j) tid now s).2 pid
      = some (applyTradeEffect p (tradeOfBody h pid v tid now) now) ∧
    (applyTradeEffect p (tradeOfBody h pid v tid now) now).updated_at = now ∧
    ((tradeOfBody h pid v tid now).side = "buy" →
      (applyTradeEffect p (tradeOfBody h pid v tid now) now).total_value
        = p.total_value + (tradeOfBody h pid v tid now).total_amount) ∧
    ((tradeOfBody h pid v tid now).side = "sell" →
      (applyTradeEffect p (tradeOfBody h pid v tid now) now).total_value
        = max 0 (p.total_value - (tradeOfBody h pid v tid now).total_amount)) ∧
    (0 ≤ p.total_value →
      0 ≤ (applyTradeEffect p (tradeOfBody h pid v tid now) now).total_value) := by
  have hc : containsPortfolio s pid = true := containsPortfolio_of_find hp
  have hres : initiate_trade h pid (some j) tid now s
      = (.created (tradeOfBody h pid v tid now),
         { s with
           trades := addTrade s.trades pid (tradeOfBody h pid v tid now)
           portfolios := s.portfolios.map
             (fun q => if q.portfolio_id = pid then
                applyTradeEffect q (tradeOfBody h pid v tid now) now
              else q) }) := by
    unfold initiate_trade
    rw [if_pos hc]
    dsimp only
    rw [if_pos htr, hload]
  set t := tradeOfBody h pid v tid now with ht
  refine ⟨by rw [hres], rfl, ?_, applyTradeEffect_updated_at p t now,
    ?_, ?_, ?_⟩
  · rw [hres]
    unfold findPortfolio
    have hg : ∀ q : Portfolio,
        (fun q => decide (q.portfolio_id = pid))
          ((fun q => if q.portfolio_id = pid then applyTradeEffect q t now
            else q) q)
          = (fun q => decide (q.portfolio_id = pid)) q := by
      intro q
      by_cases hq : q.portfolio_id = pid
      · simp [hq, applyTradeEffect_portfolio_id]
      · simp [hq]
    rw [find?_map_congr _ _ hg]
    have hp' : s.portfolios.find? (fun q => decide (q.portfolio_id = pid))
        = some p := hp
    rw [hp']
    dsimp only [Option.map]
    rw [if_pos (findPortfolio_id hp)]
  · intro hside
    unfold applyTradeEffect
    rw [if_pos hside]
  · intro hside
    unfold applyTradeEffect
    rw [if_neg (by rw [hside]; decide)]
  · intro hnn
    have hq : 0 < v.quantity := loadTrade_quantity_pos hload
    have hamt : 0 ≤ t.total_amount := by
      rw [ht]
      unfold tradeOfBody
      exact mkTrade_total_nonneg h pid v.instrumentType v.ticker v.side
        v.quantity v.orderType v.limitPrice tid now (le_of_lt hq)
    unfold applyTradeEffect
    split
    · dsimp only
      linarith
    · dsimp only
      exact le_max_left 0 _

/-- C1 witness: a concrete buy of quantity 10 on ticker AAPL against the
sample portfolio. -/
theorem C1_witness :
    findPortfolio sampleStore "p1" = some samplePortfolio ∧
    sampleTradeJson.truthy = true ∧
    loadTrade sampleTradeJson = some sampleTradeBody ∧
    ((initiate_trade h0 "p1" (some sampleTradeJson) "t1" 7 sampleStore).1
      = .created (tradeOfBody h0 "p1" sampleTradeBody "t1" 7) ∧
    (tradeOfBody h0 "p1" sampleTradeBody "t1" 7).total_amount
      = round2 ((tradeOfBody h0 "p1" sampleTradeBody "t1" 7).price_per_unit
                 * (tradeOfBody h0 "p1" sampleTradeBody "t1" 7).quantity) ∧
    findPortfolio
        (initiate_trade h0 "p1" (some sampleTradeJson) "t1" 7 sampleStore).2
        "p1"
      = some (applyTradeEffect samplePortfolio
          (tradeOfBody h0 "p1" sampleTradeBody "t1" 7) 7) ∧
    (applyTradeEffect samplePortfolio
        (tradeOfBody h0 "p1" sampleTradeBody "t1" 7) 7).updated_at = 7 ∧
    ((tradeOfBody h0 "p1" sampleTradeBody "t1" 7).side = "buy" →
      (applyTradeEffect samplePortfolio
          (tradeOfBody h0 "p1" sampleTradeBody "t1" 7) 7).total_value
        = samplePortfolio.total_value
          + (tradeOfBody h0 "p1" sampleTradeBody "t1" 7).total_amount) ∧
    ((tradeOfBody h0 "p1" sampleTradeBody "t1" 7).side = "sell" →
      (applyTradeEffect samplePortfolio
          (tradeOfBody h0 "p1" sampleTradeBody "t1" 7) 7).total_value
        = max 0 (samplePortfolio.total_value
            - (tradeOfBody h0 "p1" sampleTradeBody "t1" 7).total_amount)) ∧
    (0 ≤ samplePortfolio.total_value →
      0 ≤ (applyTradeEffect samplePortfolio
          (tradeOfBody h0 "p1" sampleTradeBody "t1" 7) 7).total_value)) :=
  ⟨by decide, by decide, by decide,
   C1_trade_value_effect h0 sampleStore "p1" "t1" sampleTradeJson 7
     sampleTradeBody samplePortfolio (by decide) (by decide) (by decide)⟩

/-!  Characterizations of the store effect of each mutating handler, used
by the reachability invariants.  -/

theorem initiate_portfolio_snd (body : Option Json) (pid aid : String)
    (now : Nat) (s : Store) :
    (initiate_portfolio body pid aid now s).2 = s ∨
    ∃ j v, body = some j ∧ j.truthy = true ∧ loadInitiate j = some v ∧
      (initiate_portfolio body pid aid now s).2
        = ({ s with portfolios :=
              dictInsert s.portfolios (portfolioOfBody v pid aid now) }) := by
  unfold initiate_portfolio
  cases body with
  | none => left; rfl
  | some j =>
    dsimp only
    by_cases htr : j.truthy = true
    · rw [if_pos htr]
      cases hload : loadInitiate j with
      | none => left; rfl
      | some v =>
        right
        exact ⟨j, v, rfl, htr, hload, rfl⟩
    · rw [if_neg htr]
      left
      rfl

theorem update_portfolio_snd (pid : String) (body : Option Json) (now : Nat)
    (s : Store) :
    (update_portfolio pid body now s).2 = s ∨
    ∃ p j v, findPortfolio s pid = some p ∧ body = some j ∧
      j.truthy = true ∧ loadUpdate j = some v ∧
      (update_portfolio pid body now s).2
        = ({ s with portfolios := s.portfolios.map
                      (fun r => if r.portfolio_id = pid then
                         applyUpdate p v now else r) }) := by
  unfold update_portfolio
  cases hp : findPortfolio s pid with
  | none => left; rfl
  | some p =>
    cases body with
    | none => left; rfl
    | some j =>
      dsimp only
      by_cases htr : j.truthy = true
      · rw [if_pos htr]
        cases hload : loadUpdate j with
        | none => left; rfl
        | some v =>
          right
          exact ⟨p, j, v, rfl, rfl, htr, hload, rfl⟩
      · rw [if_neg htr]
        left
        rfl

theorem initiate_trade_snd (h : String → Int) (pid : String)
    (body : Option Json) (tid : String) (now : Nat) (s : Store) :
    (initiate_trade h pid body tid now s).2 = s ∨
    ∃ j v, body = some j ∧ j.truthy = true ∧ loadTrade j = some v ∧
      containsPortfolio s pid = true ∧
      (initiate_trade h pid body tid now s).2
        = ({ s with
            trades := addTrade s.trades pid (tradeOfBody h pid v tid now)
            portfolios := s.portfolios.map (fun q =>
              if q.portfolio_id = pid then
                applyTradeEffect q (tradeOfBody h pid v tid now) now
              else q) }) := by
  unfold initiate_trade
  by_cases hc : containsPortfolio s pid = true
  · rw [if_pos hc]
    cases body with
    | none => left; rfl
    | some j =>
      dsimp only
      by_cases htr : j.truthy = true
      · rw [if_pos htr]
        cases hload : loadTrade j with
        | none => left; rfl
        | some v =>
          right
          exact ⟨j, v, rfl, htr, hload, hc, rfl⟩
      · rw [if_neg htr]
        left
        rfl
  · rw [if_neg hc]
    left
    rfl

/-- Membership after a dictionary assignment: the new value or an old one. -/
theorem mem_dictInsert {l : List Portfolio} {p0 q : Portfolio}
    (hq : q ∈ dictInsert l p0) : q = p0 ∨ q ∈ l := by
  unfold dictInsert at hq
  split at hq
  · rcases List.mem_map.mp hq with ⟨r, hr, hrq⟩
    by_cases hid : r.portfolio_id = p0.portfolio_id
    · rw [if_pos hid] at hrq
      left
      exact hrq.symm
    · rw [if_neg hid] at hrq
      right
      exact hrq ▸ hr
  · rcases List.mem_append.mp hq with hmem | hmem
    · right
      exact hmem
    · left
      simpa using hmem

/-- Membership after the in-place mutation pattern of the handlers. -/
theorem mem_map_touch {l : List Portfolio} {q : Portfolio} {pid : String}
    {f : Portfolio → Portfolio}
    (hq : q ∈ l.map (fun r => if r.portfolio_id = pid then f r else r)) :
    (∃ r ∈ l, q = f r) ∨ q ∈ l := by
  rcases List.mem_map.mp hq with ⟨r, hr, hrq⟩
  by_cases hid : r.portfolio_id = pid
  · rw [if_pos hid] at hrq
    left
    exact ⟨r, hr, hrq.symm⟩
  · rw [if_neg hid] at hrq
    right
    exact hrq ▸ hr

theorem applyUpdate_total_value (p : Portfolio) (v : UpdateBody) (now : Nat) :
    (applyUpdate p v now).total_value = p.total_value := rfl

theorem applyTradeEffect_total_nonneg {r : Portfolio} {t : Trade} {now : Nat}
    (hr : 0 ≤ r.total_value) (ht : 0 ≤ t.total_amount) :
    0 ≤ (applyTradeEffect r t now).total_value := by
  unfold applyTradeEffect
  split
  · dsimp only
    linarith
  · dsimp only
    exact le_max_left 0 _

theorem tradeOfBody_total_nonneg (h : String → Int) (pid : String)
    {v : TradeBody} (tid : String) (now : Nat) (hq : 0 ≤ v.quantity) :
    0 ≤ (tradeOfBody h pid v tid now).total_amount :=
  mkTrade_total_nonneg h pid v.instrumentType v.ticker v.side v.quantity
    v.orderType v.limitPrice tid now hq

/-- One step preserves non-negativity of every stored total value. -/
theorem applyOp_total_nonneg (h : String → Int) (s : Store) (op : Op)
    (hs : ∀ q ∈ s.portfolios, 0 ≤ q.total_value) :
    ∀ q ∈ (applyOp h s op).portfolios, 0 ≤ q.total_value := by
  cases op with
  | createP body pid aid now =>
    show ∀ q ∈ (initiate_portfolio body pid aid now s).2.portfolios, _
    rcases initiate_portfolio_snd body pid aid now s with heq |
      ⟨j, v, _, _, _, heq⟩
    · rw [heq]; exact hs
    · rw [heq]
      intro q hq
      rcases mem_dictInsert hq with hq0 | hqold
      · rw [hq0]
        exact le_refl 0
      · exact hs q hqold
  | updateP pid body now =>
    show ∀ q ∈ (update_portfolio pid body now s).2.portfolios, _
    rcases update_portfolio_snd pid body now s with heq |
      ⟨p, j, v, hp, _, _, _, heq⟩
    · rw [heq]; exact hs
    · rw [heq]
      intro q hq
      rcases mem_map_touch hq with ⟨r, hr, hqr⟩ | hqold
      · rw [hqr, applyUpdate_total_value]
        exact hs p (by
          have h1 : s.portfolios.find?
              (fun q => decide (q.portfolio_id = pid)) = some p := hp
          exact List.mem_of_find?_eq_some h1)
      · exact hs q hqold
  | createT pid body tid now =>
    show ∀ q ∈ (initiate_trade h pid body tid now s).2.portfolios, _
    rcases initiate_trade_snd h pid body tid now s with heq |
      ⟨j, v, _, _, hload, _, heq⟩
    · rw [heq]; exact hs
    · rw [heq]
      intro q hq
      rcases mem_map_touch hq with ⟨r, hr, hqr⟩ | hqold
      · rw [hqr]
        exact applyTradeEffect_total_nonneg (hs r hr)
          (tradeOfBody_total_nonneg h pid tid now
            (le_of_lt (loadTrade_quantity_pos hload)))
      · exact hs q hqold

/-- C2: in every store reachable from the empty store by the CRUD
operations, every portfolio's total value is non-negative. -/
theorem C2_total_value_nonneg (h : String → Int) (ops : List Op)
    (p : Portfolio) (hp : p ∈ (runOps h Store.empty ops).portfolios) :
    0 ≤ p.total_value := by
  have hgen : ∀ (ops' : List Op) (s : Store),
      (∀ q ∈ s.portfolios, 0 ≤ q.total_value) →
      ∀ q ∈ (runOps h s ops').portfolios, 0 ≤ q.total_value := by
    intro ops'
    induction ops' with
    | nil => intro s hs; exact hs
    | cons op rest ih =>
      intro s hs
      exact ih (applyOp h s op) (applyOp_total_nonneg h s op hs)
  refine hgen ops Store.empty ?_ p hp
  intro q hq
  simp [Store.empty] at hq

/-- C2 witness: the portfolio left by the concrete create-then-buy trace
has a non-negative total value. -/
theorem C2_witness :
    samplePortfolioAfter ∈ (runOps h0 Store.empty sampleOps).portfolios ∧
    0 ≤ samplePortfolioAfter.total_value :=
  ⟨by decide, C2_total_value_nonneg h0 sampleOps samplePortfolioAfter
    (by decide)⟩

/-- C3: a trade's total amount is fixed at creation as `round2` of its
per-unit price times its quantity, and no operation of the API rewrites an
existing trade: each operation leaves every portfolio's recorded trade list
as a prefix of the new one (appending at most the newly created trade). -/
theorem C3_trade_amount_frozen :
    (∀ (h : String → Int) (pid it tk sd : String) (q : ℚ) (ot : String)
       (lp : Option ℚ) (tid : String) (now : Nat),
       (mkTrade h pid it tk sd q ot lp tid now).total_amount
         = round2 ((mkTrade h pid it tk sd q ot lp tid now).price_per_unit
             * (mkTrade h pid it tk sd q ot lp tid now).quantity)) ∧
    (∀ (h : String → Int) (s : Store) (op : Op) (pid : String),
       ∃ rest, tradesOf (applyOp h s op) pid = tradesOf s pid ++ rest) := by
  constructor
  · intro h pid it tk sd q ot lp tid now
    rfl
  · intro h s op pid
    cases op with
    | createP body pid' aid now =>
      show ∃ rest, tradesOf (initiate_portfolio body pid' aid now s).2 pid = _
      rcases initiate_portfolio_snd body pid' aid now s with heq |
        ⟨j, v, _, _, _, heq⟩ <;>
        · rw [heq]
          exact ⟨[], (List.append_nil _).symm⟩
    | updateP pid' body now =>
      show ∃ rest, tradesOf (update_portfolio pid' body now s).2 pid = _
      rcases update_portfolio_snd pid' body now s with heq |
        ⟨p, j, v, _, _, _, _, heq⟩ <;>
        · rw [heq]
          exact ⟨[], (List.append_nil _).symm⟩
    | createT pid' body tid now =>
      show ∃ rest, tradesOf (initiate_trade h pid' body tid now s).2 pid = _
      rcases initiate_trade_snd h pid' body tid now s with heq |
        ⟨j, v, _, _, _, _, heq⟩
      · rw [heq]
        exact ⟨[], (List.append_nil _).symm⟩
      · rw [heq]
        exact ⟨_, lookupTrades_addTrade s.trades pid pid'
          (tradeOfBody h pid' v tid now)⟩

/-- C4: the computed per-unit price is exactly `150 + (hash(ticker) % 200)`
(the 2-decimal rounding of this integer value is exact), hence always in
[150, 350) and constant for a fixed in-process hash — but it depends on the
per-run string hash: two runs whose hashes differ on the ticker produce
different prices for the same ticker. -/
theorem C4_price_depends_on_run_hash :
    (∀ (h : String → Int) (t : String),
       pricePerUnit h t = ((150 + h t % 200 : ℤ) : ℚ)) ∧
    (∀ (h : String → Int) (t : String),
       (150 : ℚ) ≤ pricePerUnit h t ∧ pricePerUnit h t < 350) ∧
    pricePerUnit (fun _ => 0) "AAPL" = 150 ∧
    pricePerUnit (fun _ => 1) "AAPL" = 151 ∧
    pricePerUnit (fun _ => 0) "AAPL" ≠ pricePerUnit (fun _ => 1) "AAPL" := by
  have hval : ∀ (h : String → Int) (t : String),
      pricePerUnit h t = ((150 + h t % 200 : ℤ) : ℚ) := by
    intro h t
    unfold pricePerUnit
    exact round2_intCast _
  refine ⟨hval, ?_, ?_, ?_, ?_⟩
  · intro h t
    have h1 : (0 : ℤ) ≤ h t % 200 := Int.emod_nonneg _ (by norm_num)
    have h2 : h t % 200 < 200 := Int.emod_lt_of_pos _ (by norm_num)
    rw [hval h t]
    constructor
    · exact_mod_cast (by omega : (150 : ℤ) ≤ 150 + h t % 200)
    · exact_mod_cast (by omega : (150 + h t % 200 : ℤ) < 350)
  · rw [hval]
    norm_num
  · rw [hval]
    norm_num
  · rw [hval, hval]
    norm_num

/-- C5 counterexample: on a portfolio holding two trades, listing with
offset -1 returns a different page (one trade) than listing with offset 0
(two trades) — the trade-listing offset is not clamped to 0. -/
theorem C5_counterexample :
    list_trades twoTradeStore "p1" none (some (-1)) none
      ≠ list_trades twoTradeStore "p1" none (some 0) none := by
  intro heq
  have hlen := congrArg (fun r => match r with
    | TradeListResult.ok rr => rr.trades.length
    | TradeListResult.notFound => 0) heq
  have hL : (match list_trades twoTradeStore "p1" none (some (-1)) none with
      | TradeListResult.ok rr => rr.trades.length
      | TradeListResult.notFound => 0)
       = (pySlice sortedTwoTrades (-1) 19).length := rfl
  have hR : (match list_trades twoTradeStore "p1" none (some 0) none with
      | TradeListResult.ok rr => rr.trades.length
      | TradeListResult.notFound => 0)
       = (pySlice sortedTwoTrades 0 20).length := rfl
  have hS : sortedTwoTrades.length = 2 := by
    unfold sortedTwoTrades sortTrades
    rw [List.length_mergeSort]
    rfl
  have h1 : (pySlice sortedTwoTrades (-1) 19).length = 1 := by
    unfold pySlice
    simp only [List.length_take, List.length_drop, hS]
    decide
  have h2 : (pySlice sortedTwoTrades 0 20).length = 2 := by
    unfold pySlice
    simp only [List.length_take, List.length_drop, hS]
    decide
  dsimp only at hlen
  rw [hL, hR, h1, h2] at hlen
  exact absurd hlen (by norm_num)

/-- C5 as amended: the trade-listing offset defaults to 0 and is used as
supplied without clamping; for any non-negative offset the page is
drop-offset-then-take-limit of the filtered, sorted trade list (as in
portfolio listing), with the limit clamped to [1,100], while a negative
offset falls into Python slice semantics and can differ from offset 0. -/
theorem C5_nonneg_offset_paginates (s : Store) (pid : String)
    (limit0 : Option Int) (off : Int) (sf : Option String)
    (r : TradeListResp)
    (hoff : 0 ≤ off)
    (hr : list_trades s pid limit0 (some off) sf = .ok r) :
    r.offset = off ∧ r.limit = max 1 (min (limit0.getD 20) 100) ∧
    r.trades
      = ((sortTrades (filterByStatus sf Trade.status (tradesOf s pid))).drop
          off.toNat).take (max 1 (min (limit0.getD 20) 100)).toNat := by
  unfold list_trades at hr
  split at hr
  case isFalse => cases hr
  case isTrue hc =>
    dsimp only at hr
    have hrec := hr
    injection hrec with hrec'
    rw [← hrec']
    refine ⟨rfl, rfl, ?_⟩
    dsimp only
    simp only [Option.getD_some]
    have hlim : (1 : ℤ) ≤ max 1 (min (limit0.getD 20) 100) :=
      le_max_left 1 _
    rw [pySlice_nonneg _ _ _ hoff (by omega)]
    congr 1
    omega

/-- C5 witness: the amended statement at offset 0 on the two-trade store. -/
theorem C5_witness :
    (0 : Int) ≤ 0 ∧
    list_trades twoTradeStore "p1" none (some 0) none = .ok c5Resp ∧
    (c5Resp.offset = 0 ∧
     c5Resp.limit = max 1 (min ((none : Option Int).getD 20) 100) ∧
     c5Resp.trades
       = ((sortTrades (filterByStatus none Trade.status
            (tradesOf twoTradeStore "p1"))).drop
           (0 : Int).toNat).take
             (max 1 (min ((none : Option Int).getD 20) 100)).toNat) :=
  ⟨le_refl 0, rfl,
   C5_nonneg_offset_paginates twoTradeStore "p1" none 0 none c5Resp
     (le_refl 0) rfl⟩

theorem filterByStatus_sublist {α : Type} (sf : Option String)
    (st : α → String) (l : List α) : (filterByStatus sf st l).Sublist l := by
  unfold filterByStatus
  cases sf with
  | none => exact List.Sublist.refl l
  | some s0 =>
    dsimp only
    split
    · exact List.Sublist.refl l
    · exact List.filter_sublist l

theorem sortPortfolios_pairwise (l : List Portfolio) :
    List.Pairwise (fun a b => b.created_at ≤ a.created_at)
      (sortPortfolios l) := by
  have htrans : ∀ a b c : Portfolio,
      decide (b.created_at ≤ a.created_at) = true →
      decide (c.created_at ≤ b.created_at) = true →
      decide (c.created_at ≤ a.created_at) = true := by
    intro a b c hab hbc
    simp only [decide_eq_true_eq] at *
    omega
  have htotal : ∀ a b : Portfolio,
      (decide (b.created_at ≤ a.created_at)
        || decide (a.created_at ≤ b.created_at)) = true := by
    intro a b
    simp only [Bool.or_eq_true, decide_eq_true_eq]
    omega
  have h := List.sorted_mergeSort htrans htotal l
  exact h.imp (fun hab => of_decide_eq_true hab)

theorem sortPortfolios_perm (l : List Portfolio) :
    (sortPortfolios l).Perm l :=
  List.mergeSort_perm l _

/-- C6: the portfolio listing clamps the limit to [1,100] (default 20) and
the offset to ≥ 0 (default 0), returns a page of stored portfolios sorted
by creation time descending and matching the status filter when one is
supplied, reports as `total` the number of matching portfolios before
pagination, and the page holds `min limit (total - offset)` items — in
particular five stored portfolios listed with limit 2 give 2 items and
total 5. -/
theorem C6_list_portfolios_spec (s : Store) (limit0 offset0 : Option Int)
    (sf : Option String) :
    (list_portfolios s limit0 offset0 sf).limit
        = max 1 (min (limit0.getD 20) 100) ∧
    (list_portfolios s limit0 offset0 sf).offset
        = max 0 (offset0.getD 0) ∧
    List.Pairwise (fun a b => b.created_at ≤ a.created_at)
      (list_portfolios s limit0 offset0 sf).portfolios ∧
    (∀ p ∈ (list_portfolios s limit0 offset0 sf).portfolios,
       p ∈ s.portfolios ∧ ∀ st, sf = some st → st ≠ "" → p.status = st) ∧
    (list_portfolios s limit0 offset0 sf).total
        = (filterByStatus sf Portfolio.status s.portfolios).length ∧
    (list_portfolios s limit0 offset0 sf).portfolios.length
        = min (list_portfolios s limit0 offset0 sf).limit.toNat
            ((list_portfolios s limit0 offset0 sf).total
              - (list_portfolios s limit0 offset0 sf).offset.toNat) ∧
    (list_portfolios fiveStore (some 2) none none).portfolios.length = 2 ∧
    (list_portfolios fiveStore (some 2) none none).total = 5 := by
  have hoff : (0 : ℤ) ≤ max 0 (offset0.getD 0) := le_max_left 0 _
  have hlim : (1 : ℤ) ≤ max 1 (min (limit0.getD 20) 100) := le_max_left 1 _
  have hpage : (list_portfolios s limit0 offset0 sf).portfolios
      = ((filterByStatus sf Portfolio.status
          (sortPortfolios s.portfolios)).drop
            (max 0 (offset0.getD 0)).toNat).take
          ((max 0 (offset0.getD 0)
             + max 1 (min (limit0.getD 20) 100)).toNat
           - (max 0 (offset0.getD 0)).toNat) := by
    show pySlice _ _ _ = _
    rw [pySlice_nonneg _ _ _ hoff (by omega)]
  have hsub : (list_portfolios s limit0 offset0 sf).portfolios.Sublist
      (filterByStatus sf Portfolio.status (sortPortfolios s.portfolios)) := by
    rw [hpage]
    exact (List.take_sublist _ _).trans (List.drop_sublist _ _)
  have hpairF : List.Pairwise (fun a b => b.created_at ≤ a.created_at)
      (filterByStatus sf Portfolio.status (sortPortfolios s.portfolios)) :=
    List.Pairwise.sublist (filterByStatus_sublist sf Portfolio.status _)
      (sortPortfolios_pairwise s.portfolios)
  refine ⟨rfl, rfl, ?_, ?_, ?_, ?_, ?_, ?_⟩
  · exact List.Pairwise.sublist hsub hpairF
  · intro p hp
    have hpF := hsub.mem hp
    have hpL : p ∈ sortPortfolios s.portfolios :=
      (filterByStatus_sublist sf Portfolio.status _).mem hpF
    constructor
    · unfold sortPortfolios at hpL
      exact List.mem_mergeSort.mp hpL
    · intro st hsf hne
      subst hsf
      unfold filterByStatus at hpF
      dsimp only at hpF
      rw [if_neg hne] at hpF
      exact of_decide_eq_true (List.mem_filter.mp hpF).2
  · show (filterByStatus sf Portfolio.status
      (sortPortfolios s.portfolios)).length = _
    cases sf with
    | none =>
      show (sortPortfolios s.portfolios).length = s.portfolios.length
      unfold sortPortfolios
      exact List.length_mergeSort _
    | some st =>
      unfold filterByStatus
      dsimp only
      by_cases hne : st = ""
      · rw [if_pos hne, if_pos hne]
        unfold sortPortfolios
        exact List.length_mergeSort _
      · rw [if_neg hne, if_neg hne]
        exact ((sortPortfolios_perm s.portfolios).filter _).length_eq
  · rw [hpage, List.length_take, List.length_drop]
    have h1 : (max 0 (offset0.getD 0)
        + max 1 (min (limit0.getD 20) 100)).toNat
        - (max 0 (offset0.getD 0)).toNat
        = (max 1 (min (limit0.getD 20) 100)).toNat := by omega
    rw [h1]
    rfl
  · have hF5 : (sortPortfolios fiveStore.portfolios).length = 5 := by
      unfold sortPortfolios
      rw [List.length_mergeSort]
      rfl
    show (pySlice (sortPortfolios fiveStore.portfolios) 0 2).length = 2
    unfold pySlice
    simp only [List.length_take, List.length_drop, hF5]
    decide
  · have hF5 : (sortPortfolios fiveStore.portfolios).length = 5 := by
      unfold sortPortfolios
      rw [List.length_mergeSort]
      rfl
    show (sortPortfolios fiveStore.portfolios).length = 5
    exact hF5

/-- C6 witness: the spec's example instance, read off the theorem at the
five-portfolio store. -/
theorem C6_witness :
    (list_portfolios fiveStore (some 2) none none).portfolios.length = 2 ∧
    (list_portfolios fiveStore (some 2) none none).total = 5 :=
  ⟨(C6_list_portfolios_spec fiveStore (some 2) none none).2.2.2.2.2.2.1,
   (C6_list_portfolios_spec fiveStore (some 2) none none).2.2.2.2.2.2.2⟩

theorem applyUpdate_portfolio_id (p : Portfolio) (v : UpdateBody)
    (now : Nat) : (applyUpdate p v now).portfolio_id = p.portfolio_id := rfl

/-- C7: a successful portfolio update returns and stores exactly the
portfolio obtained by writing the name, the supplied optional fields, and
the refreshed update timestamp, leaving the identifier, client id, advisor
id, total value, currency, creation timestamp, and every unsupplied
optional field unchanged. -/
theorem C7_update_frame (s : Store) (pid : String) (j : Json) (now : Nat)
    (p : Portfolio) (v : UpdateBody)
    (hp : findPortfolio s pid = some p)
    (htr : j.truthy = true)
    (hload : loadUpdate j = some v) :
    (update_portfolio pid (some j) now s).1 = .ok (applyUpdate p v now) ∧
    findPortfolio (update_portfolio pid (some j) now s).2 pid
      = some (applyUpdate p v now) ∧
    (applyUpdate p v now).portfolio_name = v.portfolioName ∧
    (applyUpdate p v now).investment_objective
      = v.investmentObjective.getD p.investment_objective ∧
    (applyUpdate p v now).risk_tolerance
      = v.riskTolerance.getD p.risk_tolerance ∧
    (applyUpdate p v now).status = v.status.getD p.status ∧
    (applyUpdate p v now).benchmark_index
      = v.benchmarkIndex.getD p.benchmark_index ∧
    (applyUpdate p v now).updated_at = now ∧
    (applyUpdate p v now).portfolio_id = p.portfolio_id ∧
    (applyUpdate p v now).client_id = p.client_id ∧
    (applyUpdate p v now).advisor_id = p.advisor_id ∧
    (applyUpdate p v now).total_value = p.total_value ∧
    (applyUpdate p v now).currency = p.currency ∧
    (applyUpdate p v now).created_at = p.created_at := by
  have hres : update_portfolio pid (some j) now s
      = (.ok (applyUpdate p v now),
         { s with portfolios := s.portfolios.map
                    (fun r => if r.portfolio_id = pid then
                       applyUpdate p v now else r) }) := by
    unfold update_portfolio
    rw [hp]
    dsimp only
    rw [if_pos htr, hload]
  refine ⟨by rw [hres], ?_, rfl, rfl, rfl, rfl, rfl, rfl, rfl, rfl, rfl,
    rfl, rfl, rfl⟩
  rw [hres]
  unfold findPortfolio
  have hg : ∀ r : Portfolio,
      (fun q => decide (q.portfolio_id = pid))
        ((fun r => if r.portfolio_id = pid then applyUpdate p v now else r) r)
        = (fun q => decide (q.portfolio_id = pid)) r := by
    intro r
    by_cases hr : r.portfolio_id = pid
    · simp [hr, applyUpdate_portfolio_id, findPortfolio_id hp]
    · simp [hr]
  rw [find?_map_congr _ _ hg]
  have hp' : s.portfolios.find? (fun q => decide (q.portfolio_id = pid))
      = some p := hp
  rw [hp']
  dsimp only [Option.map]
  rw [if_pos (findPortfolio_id hp)]

/-- C7 witness: renaming the sample portfolio with a body carrying only
the name. -/
theorem C7_witness :
    findPortfolio sampleStore "p1" = some samplePortfolio ∧
    sampleUpdateJson.truthy = true ∧
    loadUpdate sampleUpdateJson = some sampleUpdateBody ∧
    ((update_portfolio "p1" (some sampleUpdateJson) 9 sampleStore).1
      = .ok (applyUpdate samplePortfolio sampleUpdateBody 9) ∧
    findPortfolio (update_portfolio "p1" (some sampleUpdateJson) 9
        sampleStore).2 "p1"
      = some (applyUpdate samplePortfolio sampleUpdateBody 9) ∧
    (applyUpdate samplePortfolio sampleUpdateBody 9).portfolio_name
      = sampleUpdateBody.portfolioName ∧
    (applyUpdate samplePortfolio sampleUpdateBody 9).investment_objective
      = sampleUpdateBody.investmentObjective.getD
          samplePortfolio.investment_objective ∧
    (applyUpdate samplePortfolio sampleUpdateBody 9).risk_tolerance
      = sampleUpdateBody.riskTolerance.getD samplePortfolio.risk_tolerance ∧
    (applyUpdate samplePortfolio sampleUpdateBody 9).status
      = sampleUpdateBody.status.getD samplePortfolio.status ∧
    (applyUpdate samplePortfolio sampleUpdateBody 9).benchmark_index
      = sampleUpdateBody.benchmarkIndex.getD
          samplePortfolio.benchmark_index ∧
    (applyUpdate samplePortfolio sampleUpdateBody 9).updated_at = 9 ∧
    (applyUpdate samplePortfolio sampleUpdateBody 9).portfolio_id
      = samplePortfolio.portfolio_id ∧
    (applyUpdate samplePortfolio sampleUpdateBody 9).client_id
      = samplePortfolio.client_id ∧
    (applyUpdate samplePortfolio sampleUpdateBody 9).advisor_id
      = samplePortfolio.advisor_id ∧
    (applyUpdate samplePortfolio sampleUpdateBody 9).total_value
      = samplePortfolio.total_value ∧
    (applyUpdate samplePortfolio sampleUpdateBody 9).currency
      = samplePortfolio.currency ∧
    (applyUpdate samplePortfolio sampleUpdateBody 9).created_at
      = samplePortfolio.created_at) :=
  ⟨by decide, by decide, by decide,
   C7_update_frame sampleStore "p1" sampleUpdateJson 9 samplePortfolio
     sampleUpdateBody (by decide) (by decide) (by decide)⟩

theorem applyTradeEffect_created_at (p : Portfolio) (t : Trade)
    (now : Nat) : (applyTradeEffect p t now).created_at = p.created_at := by
  unfold applyTradeEffect
  split <;> rfl

/-- One step preserves "created ≤ updated ≤ clock", moving the clock bound
to the operation's time. -/
theorem applyOp_timestamps (h : String → Int) (s : Store) (op : Op) (t : Nat)
    (hts : ∀ q ∈ s.portfolios,
      q.created_at ≤ q.updated_at ∧ q.updated_at ≤ t)
    (hop : t ≤ op.time) :
    ∀ q ∈ (applyOp h s op).portfolios,
      q.created_at ≤ q.updated_at ∧ q.updated_at ≤ op.time := by
  have hweak : ∀ q ∈ s.portfolios,
      q.created_at ≤ q.updated_at ∧ q.updated_at ≤ op.time := by
    intro q hq
    exact ⟨(hts q hq).1, le_trans (hts q hq).2 hop⟩
  cases op with
  | createP body pid aid now =>
    show ∀ q ∈ (initiate_portfolio body pid aid now s).2.portfolios, _
    rcases initiate_portfolio_snd body pid aid now s with heq |
      ⟨j, v, _, _, _, heq⟩
    · rw [heq]; exact hweak
    · rw [heq]
      intro q hq
      rcases mem_dictInsert hq with hq0 | hqold
      · rw [hq0]
        exact ⟨le_refl _, le_refl _⟩
      · exact hweak q hqold
  | updateP pid body now =>
    show ∀ q ∈ (update_portfolio pid body now s).2.portfolios, _
    rcases update_portfolio_snd pid body now s with heq |
      ⟨p, j, v, hp, _, _, _, heq⟩
    · rw [heq]; exact hweak
    · rw [heq]
      intro q hq
      rcases mem_map_touch hq with ⟨r, hr, hqr⟩ | hqold
      · rw [hqr]
        have hpmem : p ∈ s.portfolios := by
          have h1 : s.portfolios.find?
              (fun q => decide (q.portfolio_id = pid)) = some p := hp
          exact List.mem_of_find?_eq_some h1
        exact ⟨le_trans (hts p hpmem).1 (le_trans (hts p hpmem).2 hop),
          le_refl _⟩
      · exact hweak q hqold
  | createT pid body tid now =>
    show ∀ q ∈ (initiate_trade h pid body tid now s).2.portfolios, _
    rcases initiate_trade_snd h pid body tid now s with heq |
      ⟨j, v, _, _, _, _, heq⟩
    · rw [heq]; exact hweak
    · rw [heq]
      intro q hq
      rcases mem_map_touch hq with ⟨r, hr, hqr⟩ | hqold
      · rw [hqr, applyTradeEffect_created_at, applyTradeEffect_updated_at]
        exact ⟨le_trans (hts r hr).1 (le_trans (hts r hr).2 hop), le_refl _⟩
      · exact hweak q hqold

/-- C9: creating a portfolio and fetching it by its identifier returns the
identical stored portfolio, whose update timestamp equals (hence is at
least) its creation timestamp; and along any trace of operations whose
clock values never go backwards, every stored portfolio keeps
`createdAt ≤ updatedAt`. -/
theorem C9_create_fetch_timestamps :
    (∀ (j : Json) (v : InitiateBody) (pid aid : String) (now : Nat)
       (s : Store),
       j.truthy = true → loadInitiate j = some v →
       (initiate_portfolio (some j) pid aid now s).1
         = .created (portfolioOfBody v pid aid now) ∧
       get_portfolio (initiate_portfolio (some j) pid aid now s).2 pid
         = .ok (portfolioOfBody v pid aid now) ∧
       (portfolioOfBody v pid aid now).created_at
         ≤ (portfolioOfBody v pid aid now).updated_at) ∧
    (∀ (h : String → Int) (ops : List Op) (p : Portfolio),
       timesMono 0 ops = true →
       p ∈ (runOps h Store.empty ops).portfolios →
       p.created_at ≤ p.updated_at) := by
  constructor
  · intro j v pid aid now s htr hload
    have hres : initiate_portfolio (some j) pid aid now s
        = (.created (portfolioOfBody v pid aid now),
           { s with portfolios :=
               dictInsert s.portfolios (portfolioOfBody v pid aid now) }) := by
      unfold initiate_portfolio
      dsimp only
      rw [if_pos htr, hload]
    refine ⟨by rw [hres], ?_, le_refl _⟩
    rw [hres]
    unfold get_portfolio findPortfolio
    dsimp only
    have hfind : (dictInsert s.portfolios
        (portfolioOfBody v pid aid now)).find?
          (fun q => decide (q.portfolio_id = pid))
        = some (portfolioOfBody v pid aid now) :=
      findPortfolio_dictInsert s (portfolioOfBody v pid aid now)
    rw [hfind]
  · intro h ops p hmono hp
    have hgen : ∀ (ops' : List Op) (t : Nat) (s : Store),
        (∀ q ∈ s.portfolios,
          q.created_at ≤ q.updated_at ∧ q.updated_at ≤ t) →
        timesMono t ops' = true →
        ∀ q ∈ (runOps h s ops').portfolios,
          q.created_at ≤ q.updated_at := by
      intro ops'
      induction ops' with
      | nil =>
        intro t s hts _ q hq
        exact (hts q hq).1
      | cons op rest ih =>
        intro t s hts hmono' q hq
        unfold timesMono at hmono'
        simp only [Bool.and_eq_true, decide_eq_true_eq] at hmono'
        exact ih op.time (applyOp h s op)
          (applyOp_timestamps h s op t hts hmono'.1) hmono'.2 q hq
    refine hgen ops 0 Store.empty ?_ hmono p hp
    intro q hq
    simp [Store.empty] at hq

/-- C9 witness: the create-then-fetch round trip on the empty store, and
the timestamp invariant on the concrete create-then-rename trace. -/
theorem C9_witness :
    (sampleInitJson.truthy = true ∧
     loadInitiate sampleInitJson = some sampleInitBody ∧
     ((initiate_portfolio (some sampleInitJson) "p1" "a1" 3 Store.empty).1
        = .created (portfolioOfBody sampleInitBody "p1" "a1" 3) ∧
      get_portfolio
          (initiate_portfolio (some sampleInitJson) "p1" "a1" 3
            Store.empty).2 "p1"
        = .ok (portfolioOfBody sampleInitBody "p1" "a1" 3) ∧
      (portfolioOfBody sampleInitBody "p1" "a1" 3).created_at
        ≤ (portfolioOfBody sampleInitBody "p1" "a1" 3).updated_at)) ∧
    (timesMono 0 sampleOps = true ∧
     samplePortfolioAfter.created_at ≤ samplePortfolioAfter.updated_at) :=
  ⟨⟨by decide, by decide,
    C9_create_fetch_timestamps.1 sampleInitJson sampleInitBody "p1" "a1" 3
      Store.empty (by decide) (by decide)⟩,
   ⟨by decide,
    C9_create_fetch_timestamps.2 h0 sampleOps samplePortfolioAfter
      (by decide) (by decide)⟩⟩

/-- C10: a parsed body that is a falsy JSON value — the empty object, the
empty array, 0, false, or null — makes portfolio create, portfolio update,
and trade create answer the generic bad-request error (not a field-level
validation error) and leave the store unchanged. -/
theorem C10_falsy_body_bad_request (h : String → Int) (s : Store)
    (pid aid tid : String) (now : Nat) (j : Json) (p : Portfolio)
    (hfalsy : j.truthy = false)
    (hp : findPortfolio s pid = some p) :
    initiate_portfolio (some j) pid aid now s
      = (PortfolioCreateResult.badRequest, s) ∧
    update_portfolio pid (some j) now s
      = (PortfolioUpdateResult.badRequest, s) ∧
    initiate_trade h pid (some j) tid now s
      = (TradeCreateResult.badRequest, s) := by
  refine ⟨?_, ?_, ?_⟩
  · unfold initiate_portfolio
    dsimp only
    rw [hfalsy]
    rfl
  · unfold update_portfolio
    rw [hp]
    dsimp only
    rw [hfalsy]
    rfl
  · unfold initiate_trade
    rw [if_pos (containsPortfolio_of_find hp)]
    dsimp only
    rw [hfalsy]
    rfl

/-- C10 witness: the empty JSON object against the sample store. -/
theorem C10_witness :
    (Json.obj []).truthy = false ∧
    findPortfolio sampleStore "p1" = some samplePortfolio ∧
    (initiate_portfolio (some (Json.obj [])) "p9" "a9" 4 sampleStore
       = (PortfolioCreateResult.badRequest, sampleStore) ∧
     update_portfolio "p1" (some (Json.obj [])) 4 sampleStore
       = (PortfolioUpdateResult.badRequest, sampleStore) ∧
     initiate_trade h0 "p1" (some (Json.obj [])) "t9" 4 sampleStore
       = (TradeCreateResult.badRequest, sampleStore)) :=
  ⟨rfl, by decide,
   C10_falsy_body_bad_request h0 sampleStore "p1" "a9" "t9" 4 (Json.obj [])
     samplePortfolio rfl (by decide)⟩

/-- C8 counterexample: selection input is supplied (a result file path),
yet the run is fatal because the file cannot be read — so missing selection
input is not the only fatal input of the teardown utility. -/
theorem C8_counterexample :
    lostResultArgs.result ≠ none ∧
    teardown_main lostResultArgs emptyFs "postman-cs" quietEnv
      = .error .fileError := by
  refine ⟨?_, rfl⟩
  intro hc
  cases hc

/-- C8 as amended: the teardown utility is fatal exactly on missing
selection input (usage error) or on a supplied result file that cannot be
read, parsed, or destructured; once the resource names are known, the
whole teardown sequence runs to completion and returns its log for every
environment behaviour — no step failure raises. -/
theorem C8_teardown_fatal_conditions (args : Args)
    (readFile : String → Option Json) (org : String) (env : TdEnv) :
    (args.result = none → args.project = none →
      teardown_main args readFile org env = .error .usage) ∧
    (∀ path j ws repo fn, args.result = some path →
      readFile path = some j → extractResult j = .ok (ws, repo, fn) →
      teardown_main args readFile org env
        = .ok (runTeardown ws repo (jsonToStr fn) org args.dryRun env)) ∧
    (∀ proj, args.result = none → args.project = some proj →
      ∃ logs, teardown_main args readFile org env = .ok logs) := by
  refine ⟨?_, ?_, ?_⟩
  · intro hres hproj
    unfold teardown_main
    rw [hres]
    dsimp only
    rw [hproj]
  · intro path jj ws repo fn hres hread hex
    unfold teardown_main
    rw [hres]
    dsimp only
    rw [hread]
    dsimp only
    rw [hex]
  · intro proj hres hproj
    unfold teardown_main
    rw [hres]
    dsimp only
    rw [hproj]
    exact ⟨_, rfl⟩

/-- C8 witness: the three amended conjuncts at concrete inputs — no
selection input (usage error), a well-formed result file (completed log),
and a project name (completed log). -/
theorem C8_witness :
    (noSelectionArgs.result = none ∧ noSelectionArgs.project = none ∧
     teardown_main noSelectionArgs emptyFs "postman-cs" quietEnv
       = .error .usage) ∧
    (lostResultArgs.result = some "provisioning-result.json" ∧
     goodFs "provisioning-result.json" = some goodResultJson ∧
     extractResult goodResultJson
       = .ok (Json.str "ws-1", "advisor-portfolio-api",
              Json.str "advisor-portfolio-api") ∧
     teardown_main lostResultArgs goodFs "postman-cs" quietEnv
       = .ok (runTeardown (Json.str "ws-1") "advisor-portfolio-api"
           (jsonToStr (Json.str "advisor-portfolio-api")) "postman-cs"
           lostResultArgs.dryRun quietEnv)) ∧
    (projArgs.result = none ∧
     projArgs.project = some "Advisor Portfolio API" ∧
     ∃ logs, teardown_main projArgs emptyFs "postman-cs" quietEnv
       = .ok logs) :=
  ⟨⟨rfl, rfl,
    (C8_teardown_fatal_conditions noSelectionArgs emptyFs "postman-cs"
      quietEnv).1 rfl rfl⟩,
   ⟨rfl, rfl, rfl,
    (C8_teardown_fatal_conditions lostResultArgs goodFs "postman-cs"
      quietEnv).2.1 "provisioning-result.json" goodResultJson
      (Json.str "ws-1") "advisor-portfolio-api"
      (Json.str "advisor-portfolio-api") rfl rfl rfl⟩,
   ⟨rfl, rfl,
    (C8_teardown_fatal_conditions projArgs emptyFs "postman-cs"
      quietEnv).2.2 "Advisor Portfolio API" rfl rfl⟩⟩
